import Mathlib

/-
  Verification development for the pyrex RocksDB binding
  (src/src/pyrex/_pyrex.cpp, the column-family-aware wrapper).

  The wrapper classes PyOptions / PyColumnFamilyHandle / PyWriteBatch /
  PyRocksDBIterator / PyRocksDB / PyRocksDBExtended are embedded shallowly:
  every guard, check and state mutation of the C++ methods is reproduced as a
  pure Lean function over an explicit state.  The storage engine itself
  (rocksdb) is an external dependency of the repository; it is modelled from
  the spec's engine contract (open/close, get/put/delete, write-batch apply,
  iterator semantics, column-family lifecycle) as a key-value log keyed by
  column-family identity.  C++ exceptions become an explicit error type; a
  mutating method that can throw is embedded as a function returning the
  post-state together with an Except value, so that a throw that happens after
  a partial mutation is represented faithfully.
-/

namespace Pyrex

/-- Byte strings (python `bytes`): opaque sequences, NUL bytes allowed. -/
abbrev Bytes := List Nat

/-- Engine-level column-family identity (what rocksdb stores inside a batch). -/
abbrev CFId := Nat

/-- The error conditions of the wrapper.  The C++ source raises a single
exception type, `RocksDBException`, distinguished only by message; each
constructor here corresponds to one family of throw sites (the message is
noted).  `readOnlyErr` appears in the spec's error taxonomy (`ReadOnlyError`);
no code path of the source ever produces it. -/
inductive RErr where
  /-- "Database is not open or has been closed." (db_ == nullptr checks) -/
  | closedErr
  /-- "Database is closed." (PyRocksDBIterator::check_parent_db_is_open) -/
  | iterClosedErr
  /-- "ColumnFamilyHandle is invalid (might be dropped) ..." -/
  | invalidHandleErr
  /-- "Cannot drop the default column family." -/
  | defaultCFErr
  /-- "Column family '...' already exists." -/
  | alreadyExistsErr
  /-- "Default column family handle not found or is invalid." -/
  | defaultHandleMissingErr
  /-- a non-ok engine status wrapped into an exception -/
  | engineErr
  /-- the spec's ReadOnlyError; unreachable in this source -/
  | readOnlyErr
deriving DecidableEq, Repr

/-- Result of an engine-level point read, as the wrapper sees it
(rocksdb::Status plus the output slice): found, not-found, or an I/O fault. -/
inductive GetStatus where
  | found (v : Bytes)
  | notFound
  | ioError
deriving DecidableEq, Repr

/-- Modelled from the spec: the external storage engine, consumed only through
its contract.  `liveCFs` is the set of currently existing column families,
`nextCF` a fresh-identity counter, and `store` a write log (newest first):
an entry `(cf, k, some v)` is a put, `(cf, k, none)` a delete tombstone. -/
structure Engine where
  liveCFs : List CFId
  nextCF : CFId
  store : List (CFId × Bytes × Option Bytes)
deriving DecidableEq, Repr

/-- Newest-first lookup in the engine's write log. -/
def logLookup : List (CFId × Bytes × Option Bytes) → CFId → Bytes → Option (Option Bytes)
  | [], _, _ => none
  | (c, k, ov) :: rest, cf, key =>
      if c = cf ∧ k = key then some ov else logLookup rest cf key

/-- Modelled from the spec: engine point read — the most recent write to the
key decides; a tombstone or no entry at all is NotFound.  The healthy engine
never reports an I/O fault; the wrapper's handling of `ioError` is exercised
through `mapGetStatus` directly. -/
def engineGet (e : Engine) (cf : CFId) (k : Bytes) : GetStatus :=
  match logLookup e.store cf k with
  | some (some v) => .found v
  | some none => .notFound
  | none => .notFound

/-- Modelled from the spec: engine point write. -/
def enginePut (e : Engine) (cf : CFId) (k v : Bytes) : Engine :=
  { e with store := (cf, k, some v) :: e.store }

/-- Modelled from the spec: engine point delete (tombstone). -/
def engineDel (e : Engine) (cf : CFId) (k : Bytes) : Engine :=
  { e with store := (cf, k, none) :: e.store }

/-- Modelled from the spec: engine column-family creation; returns a fresh
identity registered as live. -/
def engineCreateCF (e : Engine) : Engine × CFId :=
  ({ e with liveCFs := e.nextCF :: e.liveCFs, nextCF := e.nextCF + 1 }, e.nextCF)

/-- Modelled from the spec: engine column-family drop removes the family from
the live set. -/
def engineDropCF (e : Engine) (cf : CFId) : Engine :=
  { e with liveCFs := e.liveCFs.filter (fun c => c ≠ cf) }

/-- One staged operation of a rocksdb::WriteBatch.  rocksdb serializes the
column-family *identity* into the batch at staging time (the handle pointer is
not retained), which is what the `CFId` field records. -/
inductive BatchOp where
  | bput (cf : CFId) (k v : Bytes)
  | bdel (cf : CFId) (k : Bytes)
  | bmerge (cf : CFId) (k v : Bytes)
deriving DecidableEq, Repr

/-- The column family a staged operation targets. -/
def BatchOp.cf : BatchOp → CFId
  | .bput c _ _ => c
  | .bdel c _ => c
  | .bmerge c _ _ => c

/-- Modelled from the spec: applying one staged operation to the engine store.
Merge semantics depend on the configured merge operator (none is configured by
this binding); the contract-level effect recorded here is a store update — no
claim depends on how merge combines values. -/
def engineApplyOp (e : Engine) : BatchOp → Engine
  | .bput cf k v => enginePut e cf k v
  | .bdel cf k => engineDel e cf k
  | .bmerge cf k v => { e with store := (cf, k, some v) :: e.store }

/-- Modelled from the spec: engine write-batch apply.  Atomic: if any staged
operation references a column family that no longer exists (it was dropped
after staging), the whole batch is rejected with a non-ok status and nothing
is applied; otherwise all operations land in staging order. -/
def engineWrite (e : Engine) (ops : List BatchOp) : Engine × Bool :=
  if ops.all (fun op => e.liveCFs.contains op.cf) then
    (ops.foldl engineApplyOp e, true)
  else
    (e, false)

/-- PyColumnFamilyHandle: `valid` is `cf_handle_ != nullptr`, `name` the family
name, `cfid` the engine identity behind `cf_handle_` while valid. -/
structure CFHandleObj where
  valid : Bool
  name : String
  cfid : CFId
deriving DecidableEq, Repr

/-- PyRocksDB / PyRocksDBExtended state.
`dbOpen` is `db_ != nullptr`; `isClosed` the atomic `is_closed_` flag;
`heap` the population of PyColumnFamilyHandle objects (shared_ptr targets,
addressed by an identity so that mutation through the registry is seen by
every holder); `cfHandles` the `cf_handles_` map from name to handle object;
`nextHandle` a fresh-identity counter for the heap. -/
structure Session where
  dbOpen : Bool
  isClosed : Bool
  heap : List (Nat × CFHandleObj)
  cfHandles : List (String × Nat)
  nextHandle : Nat
  engine : Engine
deriving DecidableEq, Repr

/-- Read a handle object through its heap identity. -/
def heapGet (s : Session) (hid : Nat) : Option CFHandleObj :=
  s.heap.lookup hid

/-- Overwrite a handle object in the heap. -/
def heapSet (s : Session) (hid : Nat) (h : CFHandleObj) : Session :=
  { s with heap := s.heap.map (fun p => if p.1 = hid then (hid, h) else p) }

/-- rocksdb::kDefaultColumnFamilyName. -/
def kDefaultColumnFamilyName : String := "default"

/-- The PyRocksDB constructor on the create-fresh path (no CURRENT file,
create_if_missing): the store is initialized with exactly the default column
family, whose handle is registered under the default name.  The attach path
differs only in which families are enumerated (a filesystem concern of the
external engine) and is not needed by any claim. -/
def openDB : Session :=
  { dbOpen := true
    isClosed := false
    heap := [(0, { valid := true, name := kDefaultColumnFamilyName, cfid := 0 })]
    cfHandles := [(kDefaultColumnFamilyName, 0)]
    nextHandle := 1
    engine := { liveCFs := [0], nextCF := 1, store := [] } }

/-- PyRocksDB::get_default_cf_handle (lines 431-440): requires the database
open, then looks the default name up in `cf_handles_` and requires the handle
valid. -/
def getDefaultCF (s : Session) : Except RErr CFHandleObj :=
  if s.dbOpen = false then .error .closedErr
  else
    match s.cfHandles.lookup kDefaultColumnFamilyName with
    | none => .error .defaultHandleMissingErr
    | some hid =>
      match heapGet s hid with
      | none => .error .defaultHandleMissingErr
      | some h => if h.valid then .ok h else .error .defaultHandleMissingErr

/-- The wrapper's mapping of an engine read status (PyRocksDB::get,
lines 386-392): ok becomes the value, IsNotFound becomes the absent result
(python None), anything else is raised. -/
def mapGetStatus : GetStatus → Except RErr (Option Bytes)
  | .found v => .ok (some v)
  | .notFound => .ok none
  | .ioError => .error .engineErr

/-- PyRocksDB::put (lines 364-375): closed check, then engine Put on the
default column family.  The modelled healthy engine's put always succeeds;
the code's mapping of a failing put status to an exception (lines 372-374) has
no reachable counterpart here. -/
def Session.put (s : Session) (k v : Bytes) : Session × Except RErr Unit :=
  if s.dbOpen = false then (s, .error .closedErr)
  else
    match getDefaultCF s with
    | .error e => (s, .error e)
    | .ok h => ({ s with engine := enginePut s.engine h.cfid k v }, .ok ())

/-- PyRocksDB::get (lines 377-393): closed check, then engine Get on the
default column family, statuses mapped by `mapGetStatus`. -/
def Session.get (s : Session) (k : Bytes) : Except RErr (Option Bytes) :=
  if s.dbOpen = false then .error .closedErr
  else
    match getDefaultCF s with
    | .error e => .error e
    | .ok h => mapGetStatus (engineGet s.engine h.cfid k)

/-- PyRocksDB::del (lines 395-405): closed check, then engine Delete on the
default column family. -/
def Session.del (s : Session) (k : Bytes) : Session × Except RErr Unit :=
  if s.dbOpen = false then (s, .error .closedErr)
  else
    match getDefaultCF s with
    | .error e => (s, .error e)
    | .ok h => ({ s with engine := engineDel s.engine h.cfid k }, .ok ())

/-- PyWriteBatch: wraps an ordered list of staged operations. -/
structure PyWriteBatch where
  ops : List BatchOp
deriving DecidableEq, Repr

/-- PyWriteBatch::put (lines 134-137): stage a put against the default column
family (identity 0).  Pure staging, no engine interaction, cannot fail. -/
def PyWriteBatch.put (b : PyWriteBatch) (k v : Bytes) : PyWriteBatch :=
  { ops := b.ops ++ [.bput 0 k v] }

/-- PyWriteBatch::put_cf (lines 140-145): the handle's validity is checked at
staging time; on a valid handle the engine identity behind it is serialized
into the batch.  Pure staging otherwise — the session is not consulted. -/
def PyWriteBatch.putCf (b : PyWriteBatch) (h : CFHandleObj) (k v : Bytes) :
    Except RErr PyWriteBatch :=
  if h.valid = false then .error .invalidHandleErr
  else .ok { ops := b.ops ++ [.bput h.cfid k v] }

/-- PyWriteBatch::del (lines 147-150). -/
def PyWriteBatch.del (b : PyWriteBatch) (k : Bytes) : PyWriteBatch :=
  { ops := b.ops ++ [.bdel 0 k] }

/-- PyWriteBatch::del_cf (lines 153-158). -/
def PyWriteBatch.delCf (b : PyWriteBatch) (h : CFHandleObj) (k : Bytes) :
    Except RErr PyWriteBatch :=
  if h.valid = false then .error .invalidHandleErr
  else .ok { ops := b.ops ++ [.bdel h.cfid k] }

/-- PyWriteBatch::merge (lines 160-163). -/
def PyWriteBatch.merge (b : PyWriteBatch) (k v : Bytes) : PyWriteBatch :=
  { ops := b.ops ++ [.bmerge 0 k v] }

/-- PyWriteBatch::merge_cf (lines 166-171). -/
def PyWriteBatch.mergeCf (b : PyWriteBatch) (h : CFHandleObj) (k v : Bytes) :
    Except RErr PyWriteBatch :=
  if h.valid = false then .error .invalidHandleErr
  else .ok { ops := b.ops ++ [.bmerge h.cfid k v] }

/-- PyWriteBatch::clear (lines 173-175). -/
def PyWriteBatch.clear (_ : PyWriteBatch) : PyWriteBatch := { ops := [] }

/-- PyRocksDB::write (lines 407-415): the only wrapper-level check is the
closed one; the batch is then handed to the engine, whose non-ok status is
raised as an exception. -/
def Session.write (s : Session) (b : PyWriteBatch) : Session × Except RErr Unit :=
  if s.dbOpen = false then (s, .error .closedErr)
  else
    match engineWrite s.engine b.ops with
    | (e, true) => ({ s with engine := e }, .ok ())
    | (_, false) => (s, .error .engineErr)

/-- PyRocksDB::close (lines 345-358): on an open database, set `is_closed_`,
null every handle registered in `cf_handles_`, clear the map, delete `db_`.
On an already-closed database the guard makes the call a no-op.  The engine
log persists (it is the on-disk store). -/
def Session.close (s : Session) : Session :=
  if s.dbOpen then
    { s with
        isClosed := true
        heap := s.heap.map
          (fun p =>
            if (s.cfHandles.map Prod.snd).contains p.1 then
              (p.1, { p.2 with valid := false })
            else p)
        cfHandles := []
        dbOpen := false }
  else s

/-- PyRocksDBExtended::put_cf (lines 458-472): closed check, handle validity
check, then engine Put through the handle's family. -/
def Session.putCf (s : Session) (hid : Nat) (k v : Bytes) :
    Session × Except RErr Unit :=
  if s.dbOpen = false then (s, .error .closedErr)
  else
    match heapGet s hid with
    | none => (s, .error .invalidHandleErr)
    | some h =>
      if h.valid = false then (s, .error .invalidHandleErr)
      else ({ s with engine := enginePut s.engine h.cfid k v }, .ok ())

/-- PyRocksDBExtended::get_cf (lines 474-493). -/
def Session.getCf (s : Session) (hid : Nat) (k : Bytes) :
    Except RErr (Option Bytes) :=
  if s.dbOpen = false then .error .closedErr
  else
    match heapGet s hid with
    | none => .error .invalidHandleErr
    | some h =>
      if h.valid = false then .error .invalidHandleErr
      else mapGetStatus (engineGet s.engine h.cfid k)

/-- PyRocksDBExtended::del_cf (lines 495-508). -/
def Session.delCf (s : Session) (hid : Nat) (k : Bytes) :
    Session × Except RErr Unit :=
  if s.dbOpen = false then (s, .error .closedErr)
  else
    match heapGet s hid with
    | none => (s, .error .invalidHandleErr)
    | some h =>
      if h.valid = false then (s, .error .invalidHandleErr)
      else ({ s with engine := engineDel s.engine h.cfid k }, .ok ())

/-- PyRocksDBExtended::create_column_family (lines 533-554): closed check,
already-tracked check, engine CreateColumnFamily (modelled as succeeding),
then a fresh handle object is registered and returned. -/
def Session.createCF (s : Session) (name : String) :
    Session × Except RErr Nat :=
  if s.dbOpen = false then (s, .error .closedErr)
  else if (s.cfHandles.lookup name).isSome then (s, .error .alreadyExistsErr)
  else
    match engineCreateCF s.engine with
    | (e, cfid) =>
      ({ s with
          engine := e
          heap := s.heap ++ [(s.nextHandle, { valid := true, name := name, cfid := cfid })]
          cfHandles := s.cfHandles ++ [(name, s.nextHandle)]
          nextHandle := s.nextHandle + 1 },
       .ok s.nextHandle)

/-- PyRocksDBExtended::drop_column_family (lines 556-586).  The two engine
statuses (DropColumnFamily, DestroyColumnFamilyHandle) are supplied as oracle
booleans, since the external engine may fail either step.  Check order as in
the code: closed, handle validity, default-family refusal; then the engine
drop — a failure there throws with nothing yet mutated; then the handle
destroy — a failure there throws after the family is already gone from the
engine, with the registry untouched (the state the code comments call
problematic); on full success the name is erased from the registry and the
shared handle object is nulled. -/
def Session.dropCF (s : Session) (hid : Nat) (dropOk destroyOk : Bool) :
    Session × Except RErr Unit :=
  if s.dbOpen = false then (s, .error .closedErr)
  else
    match heapGet s hid with
    | none => (s, .error .invalidHandleErr)
    | some h =>
      if h.valid = false then (s, .error .invalidHandleErr)
      else if h.name = kDefaultColumnFamilyName then (s, .error .defaultCFErr)
      else if dropOk = false then (s, .error .engineErr)
      else
        let s1 := { s with engine := engineDropCF s.engine h.cfid }
        if destroyOk = false then (s1, .error .engineErr)
        else
          (heapSet
            { s1 with cfHandles := s1.cfHandles.filter (fun p => p.1 ≠ h.name) }
            hid { h with valid := false },
           .ok ())

/-- PyRocksDBExtended::get_column_family (lines 600-606): a bare registry
lookup — no closed check, no validity check, no throw site; an untracked name
is returned as python None. -/
def Session.getColumnFamily (s : Session) (name : String) : Option Nat :=
  s.cfHandles.lookup name

/-- PyRocksDBExtended::get_default_cf (lines 608-610). -/
def Session.getDefaultHandle (s : Session) : Option Nat :=
  s.getColumnFamily kDefaultColumnFamilyName

/-- Lexicographic order on byte strings — the engine's default key comparator
(rocksdb::BytewiseComparator), needed for the cursor contract. -/
def bytesLe : Bytes → Bytes → Bool
  | [], _ => true
  | _ :: _, [] => false
  | a :: as, b :: bs => if a < b then true else if b < a then false else bytesLe as bs

/-- Insert into a key-sorted pair list. -/
def insertSorted (x : Bytes × Bytes) : List (Bytes × Bytes) → List (Bytes × Bytes)
  | [] => [x]
  | y :: ys => if bytesLe x.1 y.1 then x :: y :: ys else y :: insertSorted x ys

/-- Sort a pair list by key. -/
def sortPairs : List (Bytes × Bytes) → List (Bytes × Bytes)
  | [] => []
  | x :: xs => insertSorted x (sortPairs xs)

/-- The distinct keys a column family's log mentions. -/
def cfKeys (store : List (CFId × Bytes × Option Bytes)) (cf : CFId) : List Bytes :=
  ((store.filter (fun t => t.1 = cf)).map (fun t => t.2.1)).dedup

/-- Modelled from the spec: the snapshot an engine cursor sees at creation —
the live key/value pairs of one column family, in the engine's key order. -/
def visiblePairs (e : Engine) (cf : CFId) : List (Bytes × Bytes) :=
  sortPairs ((cfKeys e.store cf).filterMap
    (fun k =>
      match engineGet e cf k with
      | .found v => some (k, v)
      | _ => none))

/-- PyRocksDBIterator: `cursorId` identifies the engine cursor `it_` points
to, `itNull` is `it_ == nullptr`, and `entries`/`pos` model the cursor's
snapshot and position per the engine contract (`pos = entries.length` is the
not-positioned state a fresh cursor starts in). -/
structure IterObj where
  cursorId : Nat
  itNull : Bool
  entries : List (Bytes × Bytes)
  pos : Nat
deriving DecidableEq, Repr

/-- The python-side heap of lease objects plus the engine cursors' free
accounting.  `iters` is the population of PyRocksDBIterator objects (the
session itself keeps no such registry — see PyRocksDB, lines 257-268);
`freedCursors` records every `delete it_` that has happened, with
multiplicity, so a double free of one cursor would appear as a duplicate. -/
structure World where
  sess : Session
  iters : List (Nat × IterObj)
  nextIter : Nat
  nextCursor : Nat
  freedCursors : List Nat
deriving DecidableEq, Repr

/-- A fresh world around a freshly constructed database. -/
def initWorld : World :=
  { sess := openDB, iters := [], nextIter := 0, nextCursor := 0, freedCursors := [] }

/-- PyRocksDB::new_iterator (lines 417-424): closed check, then a new engine
cursor over the default column family is allocated and wrapped in a lease. -/
def World.newIterator (w : World) : World × Except RErr Nat :=
  if w.sess.dbOpen = false then (w, .error .closedErr)
  else
    match getDefaultCF w.sess with
    | .error e => (w, .error e)
    | .ok h =>
      let ent := visiblePairs w.sess.engine h.cfid
      ({ w with
          iters := w.iters ++
            [(w.nextIter,
              { cursorId := w.nextCursor, itNull := false,
                entries := ent, pos := ent.length })]
          nextIter := w.nextIter + 1
          nextCursor := w.nextCursor + 1 },
       .ok w.nextIter)

/-- PyRocksDBExtended::new_cf_iterator (lines 588-598): closed check, handle
validity check, then a cursor over the handle's family. -/
def World.newCfIterator (w : World) (hid : Nat) : World × Except RErr Nat :=
  if w.sess.dbOpen = false then (w, .error .closedErr)
  else
    match heapGet w.sess hid with
    | none => (w, .error .invalidHandleErr)
    | some h =>
      if h.valid = false then (w, .error .invalidHandleErr)
      else
        let ent := visiblePairs w.sess.engine h.cfid
        ({ w with
            iters := w.iters ++
              [(w.nextIter,
                { cursorId := w.nextCursor, itNull := false,
                  entries := ent, pos := ent.length })]
            nextIter := w.nextIter + 1
            nextCursor := w.nextCursor + 1 },
         .ok w.nextIter)

/-- PyRocksDBIterator::~PyRocksDBIterator (lines 191-196): if `it_` is not
null, delete the cursor and null the pointer; if it is already null, do
nothing.  Disposal consults only the lease's own pointer — the session is not
involved.  An unallocated lease id has no C++ counterpart; the model leaves
the world unchanged for it. -/
def World.disposeIter (w : World) (lid : Nat) : World :=
  match w.iters.lookup lid with
  | none => w
  | some it =>
    if it.itNull then w
    else
      { w with
          iters := w.iters.map
            (fun p => if p.1 = lid then (lid, { it with itNull := true }) else p)
          freedCursors := it.cursorId :: w.freedCursors }

/-- The observable steps PyRocksDB::close performs, in program order.
`evDestroyIterator` is included so that the absence of iterator destruction is
expressible; the code has no step that would emit it. -/
inductive CloseEvent where
  | evSetClosedFlag
  | evDestroyIterator (lid : Nat)
  | evInvalidateHandle (name : String)
  | evClearRegistry
  | evReleaseEngine
deriving DecidableEq, Repr

/-- PyRocksDB::close at world level, with its event trace (lines 345-358):
on an open database it sets the flag, nulls each registered handle in map
order, clears the registry, and deletes `db_`.  It never touches the lease
objects or their cursors.  On a closed database it does nothing and emits
nothing. -/
def World.closeTrace (w : World) : World × List CloseEvent :=
  if w.sess.dbOpen then
    ({ w with sess := w.sess.close },
     .evSetClosedFlag ::
       (w.sess.cfHandles.map (fun p => .evInvalidateHandle p.1) ++
         [.evClearRegistry, .evReleaseEngine]))
  else (w, [])

/-- World-level close, trace discarded. -/
def World.closeW (w : World) : World := (w.closeTrace).1

/-- PyRocksDBIterator::check_parent_db_is_open (lines 444-448): every lease
method begins with this check against the parent's `is_closed_` flag. -/
def World.iterCheckOpen (w : World) : Except RErr Unit :=
  if w.sess.isClosed then .error .iterClosedErr else .ok ()

/-- Common shape of the position-moving lease methods: parent-open check
first, then the cursor motion.  A missing lease id (no C++ counterpart) moves
nothing. -/
def World.iterMove (w : World) (lid : Nat) (f : IterObj → IterObj) :
    World × Except RErr Unit :=
  match w.iterCheckOpen with
  | .error e => (w, .error e)
  | .ok () =>
    match w.iters.lookup lid with
    | none => (w, .ok ())
    | some it =>
      ({ w with
          iters := w.iters.map
            (fun p => if p.1 = lid then (lid, f it) else p) },
       .ok ())

/-- PyRocksDBIterator::seek_to_first (lines 206-209). -/
def World.iterSeekToFirst (w : World) (lid : Nat) : World × Except RErr Unit :=
  w.iterMove lid (fun it => { it with pos := 0 })

/-- PyRocksDBIterator::seek_to_last (lines 211-214): on an empty snapshot the
cursor stays unpositioned. -/
def World.iterSeekToLast (w : World) (lid : Nat) : World × Except RErr Unit :=
  w.iterMove lid (fun it => { it with pos := it.entries.length - 1 })

/-- PyRocksDBIterator::seek (lines 216-219): position at the first key not
below the target (engine contract); past-the-end when there is none. -/
def World.iterSeek (w : World) (lid : Nat) (k : Bytes) : World × Except RErr Unit :=
  w.iterMove lid (fun it => { it with pos := it.entries.findIdx (fun p => bytesLe k p.1) })

/-- PyRocksDBIterator::next (lines 221-224). -/
def World.iterNext (w : World) (lid : Nat) : World × Except RErr Unit :=
  w.iterMove lid (fun it => { it with pos := it.pos + 1 })

/-- PyRocksDBIterator::prev (lines 226-229): stepping back from the first
entry leaves the cursor unpositioned (engine contract). -/
def World.iterPrev (w : World) (lid : Nat) : World × Except RErr Unit :=
  w.iterMove lid (fun it =>
    { it with pos := if it.pos = 0 then it.entries.length else it.pos - 1 })

/-- PyRocksDBIterator::valid (lines 201-204). -/
def World.iterValid (w : World) (lid : Nat) : Except RErr Bool :=
  match w.iterCheckOpen with
  | .error e => .error e
  | .ok () =>
    match w.iters.lookup lid with
    | none => .ok false
    | some it => .ok (it.pos < it.entries.length)

/-- PyRocksDBIterator::key (lines 231-237): None when not positioned. -/
def World.iterKey (w : World) (lid : Nat) : Except RErr (Option Bytes) :=
  match w.iterCheckOpen with
  | .error e => .error e
  | .ok () =>
    match w.iters.lookup lid with
    | none => .ok none
    | some it => .ok ((it.entries.get? it.pos).map Prod.fst)

/-- PyRocksDBIterator::value (lines 239-245). -/
def World.iterValue (w : World) (lid : Nat) : Except RErr (Option Bytes) :=
  match w.iterCheckOpen with
  | .error e => .error e
  | .ok () =>
    match w.iters.lookup lid with
    | none => .ok none
    | some it => .ok ((it.entries.get? it.pos).map Prod.snd)

/-- PyRocksDBIterator::check_status (lines 247-253): parent-open check, then
the cursor status — ok on the modelled healthy engine. -/
def World.iterCheckStatus (w : World) (_lid : Nat) : World × Except RErr Unit :=
  match w.iterCheckOpen with
  | .error e => (w, .error e)
  | .ok () => (w, .ok ())

/-- The operations claim C3 quantifies over: the session's get/put/delete/
write and close, and every lease method. -/
inductive SessOp where
  | opPut (k v : Bytes)
  | opGet (k : Bytes)
  | opDel (k : Bytes)
  | opWrite (b : PyWriteBatch)
  | opClose
  | opIterValid (lid : Nat)
  | opIterSeekFirst (lid : Nat)
  | opIterSeekLast (lid : Nat)
  | opIterSeek (lid : Nat) (k : Bytes)
  | opIterNext (lid : Nat)
  | opIterPrev (lid : Nat)
  | opIterKey (lid : Nat)
  | opIterValue (lid : Nat)
  | opIterStatus (lid : Nat)
deriving DecidableEq, Repr

/-- One call, sequenced at world level; returned values are discarded so that
heterogeneous calls compose (the error outcome is what C3 is about). -/
def stepOp : SessOp → World → World × Except RErr Unit
  | .opPut k v, w =>
      match w.sess.put k v with
      | (s, r) => ({ w with sess := s }, r)
  | .opGet k, w => (w, (w.sess.get k).map (fun _ => ()))
  | .opDel k, w =>
      match w.sess.del k with
      | (s, r) => ({ w with sess := s }, r)
  | .opWrite b, w =>
      match w.sess.write b with
      | (s, r) => ({ w with sess := s }, r)
  | .opClose, w => (w.closeW, .ok ())
  | .opIterValid lid, w => (w, (w.iterValid lid).map (fun _ => ()))
  | .opIterSeekFirst lid, w => w.iterSeekToFirst lid
  | .opIterSeekLast lid, w => w.iterSeekToLast lid
  | .opIterSeek lid k, w => w.iterSeek lid k
  | .opIterNext lid, w => w.iterNext lid
  | .opIterPrev lid, w => w.iterPrev lid
  | .opIterKey lid, w => (w, (w.iterKey lid).map (fun _ => ()))
  | .opIterValue lid, w => (w, (w.iterValue lid).map (fun _ => ()))
  | .opIterStatus lid, w => w.iterCheckStatus lid

/-- Run a call sequence, keeping only the state. -/
def runW : List SessOp → World → World
  | [], w => w
  | op :: ops, w => runW ops (stepOp op w).1

/-- The closed-session configuration close() leaves behind:
`db_ == nullptr` and `is_closed_` set. -/
def ClosedW (w : World) : Prop :=
  w.sess.dbOpen = false ∧ w.sess.isClosed = true

instance (w : World) : Decidable (ClosedW w) := by
  unfold ClosedW; infer_instance

lemma stepOp_closed_state (op : SessOp) (w : World) (h : ClosedW w) :
    (stepOp op w).1 = w := by
  obtain ⟨h1, h2⟩ := h
  cases op <;>
    simp [stepOp, Session.put, Session.get, Session.del, Session.write,
      World.closeW, World.closeTrace, World.iterMove, World.iterCheckOpen,
      World.iterSeekToFirst, World.iterSeekToLast, World.iterSeek,
      World.iterNext, World.iterPrev, World.iterValid, World.iterKey,
      World.iterValue, World.iterCheckStatus, h1, h2]

lemma stepOp_closed_err (op : SessOp) (w : World) (h : ClosedW w)
    (hne : op ≠ SessOp.opClose) :
    (stepOp op w).2 = Except.error RErr.closedErr ∨
      (stepOp op w).2 = Except.error RErr.iterClosedErr := by
  obtain ⟨h1, h2⟩ := h
  cases op <;>
    simp [stepOp, Session.put, Session.get, Session.del, Session.write,
      World.iterMove, World.iterCheckOpen,
      World.iterSeekToFirst, World.iterSeekToLast, World.iterSeek,
      World.iterNext, World.iterPrev, World.iterValid, World.iterKey,
      World.iterValue, World.iterCheckStatus, Except.map, h1, h2] at hne ⊢

lemma runW_closed (ops : List SessOp) (w : World) (h : ClosedW w) :
    runW ops w = w := by
  induction ops with
  | nil => rfl
  | cons op ops ih => rw [runW, stepOp_closed_state op w h, ih]

lemma close_gives_closed (w : World) (hw : w.sess.dbOpen = true) :
    ClosedW w.closeW := by
  constructor <;> simp [World.closeW, World.closeTrace, Session.close, hw]

lemma closeW_of_closed (w : World) (h : w.sess.dbOpen = false) :
    w.closeW = w := by
  simp [World.closeW, World.closeTrace, h]

lemma lookup_map_set {β : Type} (l : List (Nat × β)) (k : Nat) (b : β) :
    (l.map (fun p => if p.1 = k then (k, b) else p)).lookup k
      = (l.lookup k).map (fun _ => b) := by
  induction l with
  | nil => rfl
  | cons p l ih =>
    rcases p with ⟨a, c⟩
    by_cases hp : a = k
    · subst hp
      simp only [List.map_cons, if_pos rfl]
      simp [List.lookup]
    · have h1 : (k == a) = false := by
        simp only [beq_eq_false_iff_ne, ne_eq]
        exact fun hk => hp hk.symm
      simp only [List.map_cons, if_neg hp]
      simp [List.lookup, h1, ih]

lemma lookup_map_cond {β : Type} (l : List (Nat × β)) (P : Nat → Bool) (g : β → β)
    (k : Nat) :
    (l.map (fun p => if P p.1 then (p.1, g p.2) else p)).lookup k
      = (l.lookup k).map (fun v => if P k then g v else v) := by
  induction l with
  | nil => rfl
  | cons p l ih =>
    rcases p with ⟨a, c⟩
    by_cases hP : P a
    · simp only [List.map_cons, if_pos hP]
      by_cases hk : k = a
      · subst hk
        simp [List.lookup, hP]
      · have h1 : (k == a) = false := by
          simp only [beq_eq_false_iff_ne, ne_eq]
          exact hk
        simp [List.lookup, h1, ih]
    · simp only [List.map_cons, if_neg hP]
      by_cases hk : k = a
      · subst hk
        simp [List.lookup, hP]
      · have h1 : (k == a) = false := by
          simp only [beq_eq_false_iff_ne, ne_eq]
          exact hk
        simp [List.lookup, h1, ih]

/-- Unpack a successful getDefaultCF: the database is open and the default
name is registered to a valid handle object. -/
lemma getDefaultCF_ok_elim (s : Session) (h : CFHandleObj)
    (hdef : getDefaultCF s = Except.ok h) :
    s.dbOpen = true
    ∧ ∃ hid, s.cfHandles.lookup kDefaultColumnFamilyName = some hid
        ∧ s.heap.lookup hid = some h ∧ h.valid = true := by
  unfold getDefaultCF heapGet at hdef
  have hopen : s.dbOpen = true := by
    by_contra hne
    have h1 : s.dbOpen = false := by
      cases hdb : s.dbOpen
      · rfl
      · exact absurd hdb hne
    rw [if_pos h1] at hdef
    exact absurd hdef (by simp)
  rw [if_neg (by simp [hopen])] at hdef
  split at hdef
  · exact absurd hdef (by simp)
  · rename_i hid hl
    split at hdef
    · exact absurd hdef (by simp)
    · rename_i hobj hh
      split at hdef
      · rename_i hv
        have heq : hobj = h := by injection hdef
        subst heq
        exact ⟨hopen, hid, hl, hh, hv⟩
      · exact absurd hdef (by simp)

/-- C7: on an open session with its default handle intact, put(k,v) followed
by get(k) returns exactly v, for every key and value byte string (the empty
string and strings containing NUL bytes included: `Bytes` is unrestricted). -/
theorem c7_put_get_roundtrip (s : Session) (h : CFHandleObj) (k v : Bytes)
    (hopen : s.dbOpen = true) (hdef : getDefaultCF s = Except.ok h) :
    (s.put k v).2 = Except.ok ()
    ∧ (s.put k v).1.get k = Except.ok (some v) := by
  obtain ⟨_, hid, hl, hh, hv⟩ := getDefaultCF_ok_elim s h hdef
  have hput : s.put k v
      = ({ s with engine := enginePut s.engine h.cfid k v }, Except.ok ()) := by
    simp [Session.put, hopen, hdef]
  refine ⟨by rw [hput], ?_⟩
  rw [hput]
  simp [Session.get, hopen, getDefaultCF, heapGet, hl, hh, hv, engineGet,
    enginePut, logLookup, mapGetStatus]

/-- C7 witness: round trip at the freshly opened store with a NUL-byte key
and the empty value. -/
theorem c7_put_get_roundtrip_witness :
    (Session.put openDB [0] []).2 = Except.ok ()
    ∧ (Session.put openDB [0] []).1.get [0] = Except.ok (some []) :=
  c7_put_get_roundtrip openDB
    { valid := true, name := kDefaultColumnFamilyName, cfid := 0 } [0] [] rfl rfl

/-- C8: on an open session with its default handle intact, a key the log never
mentions reads back as the explicit absent result (not an error); a key whose
most recent operation is delete(k) reads back absent; the absent result is
distinct from the empty byte-string value; and an engine-level I/O failure on
the read path is surfaced as an error by the wrapper's status mapping. -/
theorem c8_absent_semantics (s : Session) (h : CFHandleObj) (k : Bytes)
    (hopen : s.dbOpen = true) (hdef : getDefaultCF s = Except.ok h) :
    (logLookup s.engine.store h.cfid k = none → s.get k = Except.ok none)
    ∧ (s.del k).2 = Except.ok ()
    ∧ (s.del k).1.get k = Except.ok none
    ∧ (Except.ok (none : Option Bytes) ≠ (Except.ok (some ([] : Bytes)) : Except RErr (Option Bytes)))
    ∧ mapGetStatus GetStatus.ioError = Except.error RErr.engineErr := by
  obtain ⟨_, hid, hl, hh, hv⟩ := getDefaultCF_ok_elim s h hdef
  have hdel : s.del k
      = ({ s with engine := engineDel s.engine h.cfid k }, Except.ok ()) := by
    simp [Session.del, hopen, hdef]
  refine ⟨?_, by rw [hdel], ?_, by simp, rfl⟩
  · intro hnone
    simp [Session.get, hopen, hdef, engineGet, hnone, mapGetStatus]
  · rw [hdel]
    simp [Session.get, hopen, getDefaultCF, heapGet, hl, hh, hv, engineGet,
      engineDel, logLookup, mapGetStatus]

/-- C8 witness: at the freshly opened store the key [7] was never written and
reads back absent; after deleting it, it still reads back absent. -/
theorem c8_absent_semantics_witness :
    Session.get openDB [7] = Except.ok none
    ∧ (Session.del openDB [7]).1.get [7] = Except.ok none :=
  ⟨(c8_absent_semantics openDB
      { valid := true, name := kDefaultColumnFamilyName, cfid := 0 } [7] rfl rfl).1 rfl,
   (c8_absent_semantics openDB
      { valid := true, name := kDefaultColumnFamilyName, cfid := 0 } [7] rfl rfl).2.2.1⟩

/-- C10: get_column_family is a bare registry lookup with no closed check and
no throw site: a tracked name returns its registered handle, an untracked name
returns the absent result, and after close — which empties the registry —
every name (the default included) returns absent rather than a closed-session
error. -/
theorem c10_get_column_family (w : World) (s : Session) (name : String) (hid : Nat)
    (hw : w.sess.dbOpen = true) (htracked : s.cfHandles.lookup name = some hid) :
    s.getColumnFamily name = some hid
    ∧ (∀ s' : Session, ∀ n : String, s'.cfHandles.lookup n = none →
        s'.getColumnFamily n = none)
    ∧ (∀ n : String, (w.closeW).sess.getColumnFamily n = none)
    ∧ (w.closeW).sess.getDefaultHandle = none := by
  have hreg : (w.closeW).sess.cfHandles = [] := by
    simp [World.closeW, World.closeTrace, Session.close, hw]
  refine ⟨htracked, fun s' n hn => hn, ?_, ?_⟩
  · intro n
    simp [Session.getColumnFamily, hreg]
  · simp [Session.getDefaultHandle, Session.getColumnFamily, hreg]

/-- C10 witness: the default name is tracked on a fresh store and returns its
handle; after close even the default name returns absent. -/
theorem c10_get_column_family_witness :
    Session.getColumnFamily openDB kDefaultColumnFamilyName = some 0
    ∧ (World.closeW initWorld).sess.getDefaultHandle = none :=
  ⟨(c10_get_column_family initWorld openDB kDefaultColumnFamilyName 0 rfl rfl).1,
   (c10_get_column_family initWorld openDB kDefaultColumnFamilyName 0 rfl rfl).2.2.2⟩

/-- C3: after close() has returned, the session is in the closed
configuration, and from it every subsequent get/put/delete/write and every
lease method — after any further sequence of such calls — fails with the
closed-session error (the db-null message for session methods, the
closed-flag message for lease methods) and leaves the state unchanged, while
close() itself remains an error-free no-op. -/
theorem c3_closed_session_ops (w : World) (hw : w.sess.dbOpen = true) :
    ClosedW w.closeW
    ∧ (∀ ops : List SessOp, ∀ op : SessOp, op ≠ SessOp.opClose →
        (stepOp op (runW ops w.closeW)).1 = runW ops w.closeW
        ∧ ((stepOp op (runW ops w.closeW)).2 = Except.error RErr.closedErr
            ∨ (stepOp op (runW ops w.closeW)).2 = Except.error RErr.iterClosedErr))
    ∧ (∀ ops : List SessOp,
        stepOp SessOp.opClose (runW ops w.closeW) = (runW ops w.closeW, Except.ok ())) := by
  have hc : ClosedW w.closeW := close_gives_closed w hw
  refine ⟨hc, ?_, ?_⟩
  · intro ops op hne
    have h2 : ClosedW (runW ops w.closeW) := by
      rw [runW_closed ops _ hc]
      exact hc
    exact ⟨stepOp_closed_state op _ h2, stepOp_closed_err op _ h2 hne⟩
  · intro ops
    have h2 : ClosedW (runW ops w.closeW) := by
      rw [runW_closed ops _ hc]
      exact hc
    simp [stepOp, closeW_of_closed _ h2.1]

/-- C3 witness: close the fresh store; get fails with the closed error and a
second close is accepted. -/
theorem c3_closed_session_ops_witness :
    ClosedW initWorld.closeW
    ∧ ((stepOp (SessOp.opGet []) (runW [] initWorld.closeW)).2 = Except.error RErr.closedErr
        ∨ (stepOp (SessOp.opGet []) (runW [] initWorld.closeW)).2 = Except.error RErr.iterClosedErr)
    ∧ stepOp SessOp.opClose (runW [] initWorld.closeW) = (runW [] initWorld.closeW, Except.ok ()) :=
  ⟨(c3_closed_session_ops initWorld rfl).1,
   ((c3_closed_session_ops initWorld rfl).2.1 [] (SessOp.opGet []) (by decide)).2,
   (c3_closed_session_ops initWorld rfl).2.2 []⟩

lemma heapGet_heapSet (s : Session) (hid : Nat) (nh : CFHandleObj) :
    heapGet (heapSet s hid nh) hid = (heapGet s hid).map (fun _ => nh) := by
  simp [heapGet, heapSet, lookup_map_set]

lemma putCf_invalid (s : Session) (hid : Nat) (hx : CFHandleObj) (k v : Bytes)
    (hopen : s.dbOpen = true) (hh : heapGet s hid = some hx) (hv : hx.valid = false) :
    s.putCf hid k v = (s, Except.error RErr.invalidHandleErr) := by
  simp [Session.putCf, hopen, hh, hv]

lemma getCf_invalid (s : Session) (hid : Nat) (hx : CFHandleObj) (k : Bytes)
    (hopen : s.dbOpen = true) (hh : heapGet s hid = some hx) (hv : hx.valid = false) :
    s.getCf hid k = Except.error RErr.invalidHandleErr := by
  simp [Session.getCf, hopen, hh, hv]

lemma delCf_invalid (s : Session) (hid : Nat) (hx : CFHandleObj) (k : Bytes)
    (hopen : s.dbOpen = true) (hh : heapGet s hid = some hx) (hv : hx.valid = false) :
    s.delCf hid k = (s, Except.error RErr.invalidHandleErr) := by
  simp [Session.delCf, hopen, hh, hv]

/-- A fresh store with one extra column family "cf1" (handle identity 1). -/
def sessCf1 : Session := (openDB.createCF "cf1").1

/-- The handle object behind identity 1 of `sessCf1`. -/
def cf1Handle : CFHandleObj := { valid := true, name := "cf1", cfid := 1 }

/-- The default-family handle object of a fresh store. -/
def defaultHandle : CFHandleObj :=
  { valid := true, name := kDefaultColumnFamilyName, cfid := 0 }

/-- C4: on an open session, dropping a valid non-default column family (both
engine steps succeeding) returns ok and nulls the shared handle object, after
which put_cf/get_cf/delete_cf through that handle fail with the
invalid-handle error; and dropping the default family fails with the
default-family error whatever the engine would have answered, leaving the
session (and so the still-valid default handle) untouched. -/
theorem c4_drop_invalidates (s : Session) (hid did : Nat) (h d : CFHandleObj)
    (k v : Bytes)
    (hopen : s.dbOpen = true)
    (hh : heapGet s hid = some h) (hv : h.valid = true)
    (hnd : h.name ≠ kDefaultColumnFamilyName)
    (hd : heapGet s did = some d) (hdv : d.valid = true)
    (hdd : d.name = kDefaultColumnFamilyName) :
    (s.dropCF hid true true).2 = Except.ok ()
    ∧ heapGet (s.dropCF hid true true).1 hid = some { h with valid := false }
    ∧ ((s.dropCF hid true true).1.putCf hid k v).2 = Except.error RErr.invalidHandleErr
    ∧ (s.dropCF hid true true).1.getCf hid k = Except.error RErr.invalidHandleErr
    ∧ ((s.dropCF hid true true).1.delCf hid k).2 = Except.error RErr.invalidHandleErr
    ∧ (∀ ok1 ok2 : Bool, s.dropCF did ok1 ok2 = (s, Except.error RErr.defaultCFErr)) := by
  have hdrop : s.dropCF hid true true
      = (heapSet
          { s with engine := engineDropCF s.engine h.cfid,
                   cfHandles := s.cfHandles.filter (fun p => p.1 ≠ h.name) }
          hid { h with valid := false },
         Except.ok ()) := by
    simp [Session.dropCF, hopen, hh, hv, hnd]
  have hS : heapGet (s.dropCF hid true true).1 hid = some { h with valid := false } := by
    rw [hdrop]
    rw [heapGet_heapSet]
    have hh2 : heapGet
        { s with engine := engineDropCF s.engine h.cfid,
                 cfHandles := s.cfHandles.filter (fun p => p.1 ≠ h.name) } hid
        = some h := hh
    rw [hh2]
    rfl
  have hopen2 : (s.dropCF hid true true).1.dbOpen = true := by
    rw [hdrop]
    exact hopen
  refine ⟨by rw [hdrop], hS, ?_, ?_, ?_, ?_⟩
  · have := putCf_invalid (s.dropCF hid true true).1 hid { h with valid := false }
      k v hopen2 hS rfl
    rw [this]
  · exact getCf_invalid (s.dropCF hid true true).1 hid { h with valid := false }
      k hopen2 hS rfl
  · have := delCf_invalid (s.dropCF hid true true).1 hid { h with valid := false }
      k hopen2 hS rfl
    rw [this]
  · intro ok1 ok2
    simp [Session.dropCF, hopen, hd, hdv, hdd]

/-- C4 witness: drop "cf1" at the concrete two-family store, then put_cf
through its handle fails invalid; dropping the default fails with the
default-family error. -/
theorem c4_drop_invalidates_witness :
    ((sessCf1.dropCF 1 true true).1.putCf 1 [1] [2]).2 = Except.error RErr.invalidHandleErr
    ∧ sessCf1.dropCF 0 true true = (sessCf1, Except.error RErr.defaultCFErr) :=
  ⟨(c4_drop_invalidates sessCf1 1 0 cf1Handle defaultHandle [1] [2]
      rfl rfl rfl (by decide) rfl rfl rfl).2.2.1,
   (c4_drop_invalidates sessCf1 1 0 cf1Handle defaultHandle [1] [2]
      rfl rfl rfl (by decide) rfl rfl rfl).2.2.2.2.2 true true⟩

/-- C5: when the engine-level DropColumnFamily fails on a valid non-default
handle, drop_column_family raises the failure before mutating anything: the
session state after the failed drop is exactly the state before the call, so
the family is still discoverable in the registry and its handle still valid. -/
theorem c5_failed_drop_preserves_registry (s : Session) (hid : Nat)
    (h : CFHandleObj) (destroyOk : Bool)
    (hopen : s.dbOpen = true)
    (hh : heapGet s hid = some h) (hv : h.valid = true)
    (hnd : h.name ≠ kDefaultColumnFamilyName) :
    s.dropCF hid false destroyOk = (s, Except.error RErr.engineErr)
    ∧ (s.dropCF hid false destroyOk).1.getColumnFamily h.name
        = s.getColumnFamily h.name
    ∧ heapGet (s.dropCF hid false destroyOk).1 hid = some h := by
  have hfail : s.dropCF hid false destroyOk = (s, Except.error RErr.engineErr) := by
    simp [Session.dropCF, hopen, hh, hv, hnd]
  exact ⟨hfail, by rw [hfail], by rw [hfail]; exact hh⟩

/-- C5 witness: a failing engine drop of "cf1" at the concrete store surfaces
the error and leaves the session exactly as it was. -/
theorem c5_failed_drop_preserves_registry_witness :
    sessCf1.dropCF 1 false true = (sessCf1, Except.error RErr.engineErr) :=
  (c5_failed_drop_preserves_registry sessCf1 1 cf1Handle true
    rfl rfl rfl (by decide)).1

/-- A fresh store with one outstanding iterator lease (identity 0, engine
cursor 0). -/
def demoWorld : World := (initWorld.newIterator).1

/-- The lease object of `demoWorld`. -/
def demoIter : IterObj := { cursorId := 0, itNull := false, entries := [], pos := 0 }

/-- C1 counterexample: at the concrete world holding one lease, closing the
session frees no cursor at all — the session does not force-dispose registered
cursors during close, contrary to the claim's premise — and disposing the
lease afterwards is not a no-op: it performs the (first) free of the cursor. -/
theorem c1_counterexample :
    (demoWorld.closeW).freedCursors = []
    ∧ (demoWorld.closeW.disposeIter 0).freedCursors = [0] :=
  ⟨rfl, rfl⟩

/-- C1 amended: close() never frees a lease's cursor (the session keeps no
live-iterator set), so disposing a lease after close performs the first and
only free of its cursor; the destructor's null-check makes a second disposal
of the same lease a no-op, so the lease can never free its cursor twice. -/
theorem c1_amended_single_free (w : World) (lid : Nat) (it : IterObj)
    (hit : w.iters.lookup lid = some it) (hnull : it.itNull = false) :
    (w.closeW).freedCursors = w.freedCursors
    ∧ (w.disposeIter lid).freedCursors = it.cursorId :: w.freedCursors
    ∧ (w.disposeIter lid).disposeIter lid = w.disposeIter lid := by
  have hd : w.disposeIter lid
      = { w with
            iters := w.iters.map
              (fun p => if p.1 = lid then (lid, { it with itNull := true }) else p),
            freedCursors := it.cursorId :: w.freedCursors } := by
    simp [World.disposeIter, hit, hnull]
  refine ⟨?_, by rw [hd], ?_⟩
  · by_cases hdb : w.sess.dbOpen <;> simp [World.closeW, World.closeTrace, hdb]
  · rw [hd]
    have h1 : (w.iters.map
        (fun p => if p.1 = lid then (lid, { it with itNull := true }) else p)).lookup lid
        = some { it with itNull := true } := by
      rw [lookup_map_set, hit]
      rfl
    simp [World.disposeIter, h1]

/-- C1 amended witness: disposing the demo lease after close frees cursor 0
exactly once, and a second disposal changes nothing. -/
theorem c1_amended_single_free_witness :
    (demoWorld.disposeIter 0).freedCursors = [0]
    ∧ (demoWorld.disposeIter 0).disposeIter 0 = demoWorld.disposeIter 0 :=
  ⟨(c1_amended_single_free demoWorld 0 demoIter rfl rfl).2.1,
   (c1_amended_single_free demoWorld 0 demoIter rfl rfl).2.2⟩

/-- Recognizes an iterator-destruction step in a close trace. -/
def isDestroyEvent : CloseEvent → Bool
  | .evDestroyIterator _ => true
  | _ => false

/-- C2 counterexample: at the concrete world holding one lease, the winning
close() leaves that lease exactly as it was (cursor alive, pointer non-null)
and its teardown trace contains no iterator-destruction step — close does not
destroy the outstanding iterators before invalidating handles and releasing
the engine handle. -/
theorem c2_counterexample :
    demoWorld.closeW.iters.lookup 0 = some demoIter
    ∧ (demoWorld.closeTrace).2.filter isDestroyEvent = [] :=
  ⟨rfl, rfl⟩

lemma filter_destroy_invalidate (l : List (String × Nat)) :
    ((l.map (fun p => CloseEvent.evInvalidateHandle p.1)).filter isDestroyEvent) = [] := by
  induction l with
  | nil => rfl
  | cons p l ih => simp [isDestroyEvent, ih]

/-- C2 amended: the winning close() of an open session performs, in order:
set the closed flag, invalidate every column-family handle registered in the
registry, clear the registry, release the engine handle.  It destroys no
iterators (there is no live-iterator set): the lease population and the
cursor free-accounting are untouched and the trace has no destruction step.
A further close() on the result is a silent no-op. -/
theorem c2_amended_close_order (w : World) (hw : w.sess.dbOpen = true) :
    (w.closeTrace).2
      = CloseEvent.evSetClosedFlag
        :: (w.sess.cfHandles.map (fun p => CloseEvent.evInvalidateHandle p.1)
            ++ [CloseEvent.evClearRegistry, CloseEvent.evReleaseEngine])
    ∧ (w.closeTrace).1.sess.isClosed = true
    ∧ (w.closeTrace).1.sess.dbOpen = false
    ∧ (w.closeTrace).1.sess.cfHandles = []
    ∧ (∀ hid : Nat, ∀ h : CFHandleObj,
        (w.sess.cfHandles.map Prod.snd).contains hid = true →
        heapGet (w.closeTrace).1.sess hid = some h → h.valid = false)
    ∧ (w.closeTrace).1.iters = w.iters
    ∧ (w.closeTrace).1.freedCursors = w.freedCursors
    ∧ (w.closeTrace).2.filter isDestroyEvent = []
    ∧ ((w.closeTrace).1.closeTrace).2 = [] := by
  have hct : w.closeTrace
      = ({ w with sess := w.sess.close },
         CloseEvent.evSetClosedFlag
           :: (w.sess.cfHandles.map (fun p => CloseEvent.evInvalidateHandle p.1)
               ++ [CloseEvent.evClearRegistry, CloseEvent.evReleaseEngine])) := by
    simp [World.closeTrace, hw]
  have hclose : w.sess.close
      = { w.sess with
            isClosed := true
            heap := w.sess.heap.map
              (fun p =>
                if (w.sess.cfHandles.map Prod.snd).contains p.1 then
                  (p.1, { p.2 with valid := false })
                else p)
            cfHandles := []
            dbOpen := false } := by
    simp [Session.close, hw]
  refine ⟨by rw [hct], by rw [hct, hclose], by rw [hct, hclose], by rw [hct, hclose],
    ?_, by rw [hct], by rw [hct], ?_, ?_⟩
  · intro hid h hcont hres
    rw [hct] at hres
    have hres2 : (w.sess.heap.map
        (fun p =>
          if (w.sess.cfHandles.map Prod.snd).contains p.1 then
            (p.1, { p.2 with valid := false })
          else p)).lookup hid = some h := by
      rw [← hres, hclose]
      rfl
    rw [lookup_map_cond w.sess.heap
      (fun n => (w.sess.cfHandles.map Prod.snd).contains n)
      (fun v => { v with valid := false }) hid] at hres2
    rw [hcont] at hres2
    rcases hw2 : w.sess.heap.lookup hid with _ | h0
    · rw [hw2] at hres2
      simp at hres2
    · rw [hw2] at hres2
      simp at hres2
      rw [← hres2]
  · rw [hct]
    simp [List.filter_append, filter_destroy_invalidate, isDestroyEvent]
  · rw [hct]
    have h0 : w.sess.close.dbOpen = false := by rw [hclose]
    simp [World.closeTrace, h0]

/-- C2 amended witness: the demo world's close trace is exactly flag,
invalidate "default", clear registry, release engine — and the lease
population is untouched. -/
theorem c2_amended_close_order_witness :
    (demoWorld.closeTrace).2
      = CloseEvent.evSetClosedFlag
        :: (demoWorld.sess.cfHandles.map (fun p => CloseEvent.evInvalidateHandle p.1)
            ++ [CloseEvent.evClearRegistry, CloseEvent.evReleaseEngine])
    ∧ (demoWorld.closeTrace).1.iters = demoWorld.iters :=
  ⟨(c2_amended_close_order demoWorld rfl).1,
   (c2_amended_close_order demoWorld rfl).2.2.2.2.2.1⟩

/-- A handle object that has been invalidated (as after a drop). -/
def deadHandle : CFHandleObj := { valid := false, name := "cf1", cfid := 1 }

/-- C6 counterexample: staging is not free of error conditions beyond
argument types — put_cf on a write batch fails with the invalid-handle error
when the given handle object is already invalid at staging time. -/
theorem c6_counterexample :
    PyWriteBatch.putCf { ops := [] } deadHandle [0] [1]
      = Except.error RErr.invalidHandleErr := rfl

lemma contains_filter_ne (l : List CFId) (x : CFId) :
    ((l.filter (fun c => c ≠ x)).contains x) = false := by
  induction l with
  | nil => rfl
  | cons a l ih =>
    rw [List.filter_cons]
    by_cases ha : a = x
    · rw [if_neg (by simp [ha])]
      exact ih
    · rw [if_pos (by simp [ha])]
      have hxa : (x == a) = false := by
        simp only [beq_eq_false_iff_ne, ne_eq]
        exact fun hc => ha hc.symm
      simp [List.contains, List.elem, hxa]

/-- C6 amended: staging performs no engine interaction, but put_cf (likewise
delete_cf, merge_cf) fails immediately when the handle is already invalid at
staging time; an operation staged through a then-valid handle records the
family's engine identity, and if that family is dropped before commit, the
session's write fails with an engine error — the batch is rejected atomically,
nothing is applied. -/
theorem c6_amended_commit_rejects (s : Session) (hid : Nat) (h : CFHandleObj)
    (b b' : PyWriteBatch) (k v : Bytes)
    (hopen : s.dbOpen = true) (hh : heapGet s hid = some h) (hv : h.valid = true)
    (hnd : h.name ≠ kDefaultColumnFamilyName)
    (hstage : PyWriteBatch.putCf b h k v = Except.ok b') :
    ((s.dropCF hid true true).1.write b').2 = Except.error RErr.engineErr
    ∧ ((s.dropCF hid true true).1.write b').1 = (s.dropCF hid true true).1
    ∧ (∀ h' : CFHandleObj, h'.valid = false →
        PyWriteBatch.putCf b h' k v = Except.error RErr.invalidHandleErr) := by
  have hb' : b' = { ops := b.ops ++ [BatchOp.bput h.cfid k v] } := by
    rw [PyWriteBatch.putCf, hv] at hstage
    simp at hstage
    exact hstage.symm
  have hdrop : s.dropCF hid true true
      = (heapSet
          { s with engine := engineDropCF s.engine h.cfid,
                   cfHandles := s.cfHandles.filter (fun p => p.1 ≠ h.name) }
          hid { h with valid := false },
         Except.ok ()) := by
    simp [Session.dropCF, hopen, hh, hv, hnd]
  have hall : b'.ops.all
      (fun op => ((engineDropCF s.engine h.cfid).liveCFs).contains op.cf) = false := by
    rw [hb']
    simp [List.all_append, engineDropCF, BatchOp.cf, contains_filter_ne]
  have hew : engineWrite (engineDropCF s.engine h.cfid) b'.ops
      = (engineDropCF s.engine h.cfid, false) := by
    unfold engineWrite
    rw [if_neg]
    intro hcontra
    rw [hall] at hcontra
    exact absurd hcontra (by simp)
  have hwr : (s.dropCF hid true true).1.write b'
      = ((s.dropCF hid true true).1, Except.error RErr.engineErr) := by
    rw [hdrop]
    unfold Session.write heapSet
    dsimp only
    rw [if_neg (by simp [hopen]), hew]
  refine ⟨by rw [hwr], by rw [hwr], ?_⟩
  intro h' hv'
  simp [PyWriteBatch.putCf, hv']

/-- C6 amended witness: a batch op staged against "cf1" before its drop makes
the commit at the concrete store fail with the engine error. -/
theorem c6_amended_commit_rejects_witness :
    ((sessCf1.dropCF 1 true true).1.write { ops := [BatchOp.bput 1 [3] [4]] }).2
      = Except.error RErr.engineErr :=
  (c6_amended_commit_rejects sessCf1 1 cf1Handle { ops := [] }
    { ops := [BatchOp.bput 1 [3] [4]] } [3] [4]
    rfl rfl rfl (by decide) rfl).1

/-- C9 counterexample: the constructor yields only read-write sessions — on a
freshly opened store, put succeeds (and the value reads back), rather than any
read-only failure being possible; no read_only parameter exists. -/
theorem c9_counterexample :
    (Session.put openDB [0] [1]).2 = Except.ok ()
    ∧ (Session.put openDB [0] [1]).1.get [0] = Except.ok (some [1]) :=
  ⟨rfl, rfl⟩

lemma getDefaultCF_no_readonly (s : Session) :
    getDefaultCF s ≠ Except.error RErr.readOnlyErr := by
  unfold getDefaultCF heapGet
  split
  · simp
  · split
    · simp
    · split
      · simp
      · split <;> simp

/-- C9 amended: sessions cannot be opened read-only — the constructor takes
only a path and options — and no mutation path can fail with the spec's
ReadOnlyError: put, delete and batch write never produce it, and on a freshly
opened store put succeeds for every key and value. -/
theorem c9_amended_no_readonly_mode (s : Session) (k v : Bytes) (b : PyWriteBatch) :
    (s.put k v).2 ≠ Except.error RErr.readOnlyErr
    ∧ (s.del k).2 ≠ Except.error RErr.readOnlyErr
    ∧ (s.write b).2 ≠ Except.error RErr.readOnlyErr
    ∧ (Session.put openDB k v).2 = Except.ok () := by
  refine ⟨?_, ?_, ?_, rfl⟩
  · unfold Session.put
    split
    · simp
    · split
      · rename_i e heq
        intro hcontra
        have he : e = RErr.readOnlyErr := by
          injection hcontra
        rw [he] at heq
        exact getDefaultCF_no_readonly s heq
      · simp
  · unfold Session.del
    split
    · simp
    · split
      · rename_i e heq
        intro hcontra
        have he : e = RErr.readOnlyErr := by
          injection hcontra
        rw [he] at heq
        exact getDefaultCF_no_readonly s heq
      · simp
  · unfold Session.write
    split
    · simp
    · split <;> simp

end Pyrex
